import Mathlib

/-!
Verification development for the CoverScope pipeline
(src/app.py, src/utils/analytics.py, src/utils/ml_classifier.py).

The Python modules are shallowly embedded: strings are Lean `String`s
(substring search and ASCII lower-casing are modelled on the underlying
character lists so every definition is kernel-evaluable), machine floats
are modelled as real numbers, Python dicts that preserve insertion order
are modelled as association lists, and code paths that raise exceptions
return `Option`/`Except` values.
-/

namespace CoverScope

/-! ## String primitives

Python `in` (substring test), `str.lower` (the keyword tables only contain
ASCII letters and uncased Japanese script, so ASCII case-folding is the
faithful model) and `str.strip`. -/

/-- Model of ASCII lower-casing of one character, as done by `str.lower`
on the title alphabet used by the sources. -/
def lowerChar (c : Char) : Char :=
  if ('A' ≤ c) ∧ (c ≤ 'Z') then Char.ofNat (c.toNat + 32) else c

/-- Model of Python `str.lower`. -/
def strLower (s : String) : String := String.mk (s.data.map lowerChar)

/-- Is the first list a prefix of the second? -/
def isPrefixList : List Char → List Char → Bool
  | [], _ => true
  | _ :: _, [] => false
  | c :: cs, d :: ds => (c = d) && isPrefixList cs ds

/-- Substring containment on character lists: Python `needle in hay`. -/
def containsSub (needle : List Char) : List Char → Bool
  | [] => isPrefixList needle []
  | c :: rest => isPrefixList needle (c :: rest) || containsSub needle rest

/-- Python `needle in hay` on strings. -/
def subStr (needle hay : String) : Bool := containsSub needle.data hay.data

/-- One whitespace character, in the sense of Python `str.strip`. -/
def isSpaceChar (c : Char) : Bool :=
  (c = ' ') || (c = '\t') || (c = '\n') || (c = '\r')

/-- Drop leading whitespace characters. -/
def dropLeadingSpaces : List Char → List Char
  | [] => []
  | c :: rest => if isSpaceChar c then dropLeadingSpaces rest else c :: rest

/-- Model of Python `str.strip`: drop leading and trailing whitespace. -/
def pyStrip (s : String) : String :=
  String.mk (dropLeadingSpaces (dropLeadingSpaces s.data.reverse).reverse)

/-! ## Data model

One video record, as consumed by the analytics / ML layers.  `views` and
`upload_date` are the fields the trend scorer and aggregator read;
`upload_date` is `none` when the key is absent from the record dict. -/

structure Video where
  title : String
  description : String
  views : Int
  upload_date : Option String
deriving DecidableEq

/-! ## Date handling

`datetime.strptime(s, "%Y-%m-%d")` (and `datetime.fromisoformat`
restricted to the plain calendar-date form the two parsers share):
a 4-digit year, 1-2 digit month and day, validated against the calendar.
Parsed dates are turned into a proleptic-Gregorian day number so that
datetime subtraction can be modelled by integer subtraction. -/

/-- Split a character list at every dash, like Python `s.split("-")`. -/
def splitDash : List Char → List (List Char)
  | [] => [[]]
  | c :: rest =>
    if c = '-' then [] :: splitDash rest
    else
      match splitDash rest with
      | [] => [[c]]
      | p :: ps => (c :: p) :: ps

/-- Decimal digit test. -/
def isDigitChar (c : Char) : Bool := ('0' ≤ c) && (c ≤ '9')

/-- Value of one decimal digit character. -/
def digitVal (c : Char) : Nat := c.toNat - 48

/-- Parse a non-empty all-digit character list as a natural number. -/
def natOfDigits (cs : List Char) : Option Nat :=
  if cs ≠ [] ∧ cs.all isDigitChar then
    some (cs.foldl (fun a c => a * 10 + digitVal c) 0)
  else none

/-- Gregorian leap-year rule. -/
def isLeap (y : Nat) : Bool := (y % 4 = 0) && ((y % 100 ≠ 0) || (y % 400 = 0))

/-- Length of a month, as validated by `datetime`. -/
def daysInMonth (y m : Nat) : Nat :=
  if m = 2 then (if isLeap y then 29 else 28)
  else if m = 4 ∨ m = 6 ∨ m = 9 ∨ m = 11 then 30
  else 31

/-- Model of `datetime.strptime(s, "%Y-%m-%d")`: exactly three dash-separated
fields, a 4-digit year (`datetime` requires year ≥ 1), a 1-2 digit month in
1..12 and a 1-2 digit day valid for that month; `none` models the
`ValueError` raised on any other input. -/
def parseYMD (s : String) : Option (Nat × Nat × Nat) :=
  match splitDash s.data with
  | [ys, ms, ds] =>
    match natOfDigits ys, natOfDigits ms, natOfDigits ds with
    | some y, some m, some d =>
      if ys.length = 4 ∧ ms.length ≤ 2 ∧ ds.length ≤ 2
          ∧ 1 ≤ y ∧ 1 ≤ m ∧ m ≤ 12 ∧ 1 ≤ d ∧ d ≤ daysInMonth y m
      then some (y, m, d) else none
    | _, _, _ => none
  | _ => none

/-- Proleptic-Gregorian day number of a calendar date (era algorithm),
used to model subtraction of `datetime` values; valid for year ≥ 1. -/
def dayNumber (y m d : Nat) : Nat :=
  let yAdj := if m ≤ 2 then y - 1 else y
  let era := yAdj / 400
  let yoe := yAdj % 400
  let mp := (m + 9) % 12
  let doy := (153 * mp + 2) / 5 + (d - 1)
  let doe := yoe * 365 + yoe / 4 - yoe / 100 + doy
  era * 146097 + doe

/-- Decimal digit character. -/
def digitChar (n : Nat) : Char := Char.ofNat (48 + n)

/-- Two-digit zero-padded decimal rendering (Python `%m` in `strftime`). -/
def pad2 (n : Nat) : List Char := [digitChar (n / 10 % 10), digitChar (n % 10)]

/-- Four-digit zero-padded decimal rendering of the year. -/
def pad4 (n : Nat) : List Char :=
  [digitChar (n / 1000 % 10), digitChar (n / 100 % 10),
   digitChar (n / 10 % 10), digitChar (n % 10)]

/-- `strftime("%Y-%m")` of a parsed date. -/
def fmtMonth (y m : Nat) : String := String.mk (pad4 y ++ [ '-' ] ++ pad2 m)

/-- `datetime.strptime(date, "%Y-%m-%d").strftime("%Y-%m")`:
the month key of one upload-date string, `none` when parsing raises. -/
def monthKey (s : String) : Option String :=
  (parseYMD s).map (fun t => fmtMonth t.1 t.2.1)

/-- The parse performed per record by `calculate_trend_score`
(`fromisoformat` with `strptime("%Y-%m-%d")` as fallback), returning the
day number of the parsed date; `none` models the uncaught `ValueError`
when both parsers reject the string. -/
def parseFlex (s : String) : Option Nat :=
  (parseYMD s).map (fun t => dayNumber t.1 t.2.1 t.2.2)

namespace Analytics

/-! ## utils/analytics.py -/

/-- Keyword bucket (analytics module). -/
def ACOUSTIC_KEYWORDS : List String :=
  ["acoustic", "acoustic version", "unplugged", "アコースティック", "アコギ"]

/-- Keyword bucket (analytics module). -/
def BAND_KEYWORDS : List String :=
  ["band", "full band", "arrange", "arrangement", "バンドカバー", "編成",
   "full arrangement", "アレンジ"]

/-- Keyword bucket (analytics module). -/
def VOCAL_KEYWORDS : List String :=
  ["vocal", "vocals", "a cappella", "a-capella", "vocal cover", "sing",
   "歌ってみた", "ボーカル", "ボーカルカバー", "アカペラ",
   "歌わせていただきました", "歌ってみた"]

/-- Keyword bucket (analytics module). -/
def INSTRUMENTAL_KEYWORDS : List String :=
  ["instrumental", "inst", "instrumental cover", "piano", "guitar", "drum",
   "bass", "solo", "弾いてみた", "インスト", "ピアノ", "ギター"]

/-- One entry of `COVER_TYPE_MAP`. -/
structure CoverType where
  name : String
  icon : String
deriving DecidableEq

/-- `COVER_TYPE_MAP["acoustic"]`. -/
def coverTypeAcoustic : CoverType := ⟨"Acoustic / Soft", "bi bi-music-note-beamed"⟩

/-- `COVER_TYPE_MAP["band"]`. -/
def coverTypeBand : CoverType := ⟨"Band / Full Arrangement", "bi bi-people-fill"⟩

/-- `COVER_TYPE_MAP["vocal"]`. -/
def coverTypeVocal : CoverType := ⟨"Vocal cover", "bi bi-mic-fill"⟩

/-- `COVER_TYPE_MAP["instrumental"]`. -/
def coverTypeInstrumental : CoverType := ⟨"Instrumental", "bi bi-music-note-list"⟩

/-- `COVER_TYPE_MAP["other"]`. -/
def coverTypeOther : CoverType := ⟨"Other / Remix", "bi bi-question-circle-fill"⟩

/-- The search text of `classify_cover_type`: the title twice (double
weight) followed by the description, space-separated; never emitted, only
scanned. -/
def searchTextRaw (video : Video) : String :=
  video.title ++ (" ") ++ video.title ++ (" ") ++ video.description

/-- `classify_cover_type`: priority chain acoustic, band, vocal,
instrumental, other over the title-doubled search text. -/
def classify_cover_type (video : Video) : CoverType :=
  let text_to_check_raw := searchTextRaw video
  let text_to_check_lower := strLower text_to_check_raw
  if ACOUSTIC_KEYWORDS.any (fun kw => subStr kw text_to_check_lower) then
    coverTypeAcoustic
  else if BAND_KEYWORDS.any (fun kw => subStr kw text_to_check_lower) then
    coverTypeBand
  else if VOCAL_KEYWORDS.any
      (fun kw => subStr kw text_to_check_lower || subStr kw text_to_check_raw) then
    coverTypeVocal
  else if INSTRUMENTAL_KEYWORDS.any
      (fun kw => subStr kw text_to_check_lower || subStr kw text_to_check_raw) then
    coverTypeInstrumental
  else coverTypeOther

/-- The cover-keyword table of `classify_video_title`
(the Japanese entry 歌ってみた appears twice in the source). -/
def cover_keywords : List String :=
  ["cover", "acoustic", "band cover", "piano cover",
   "guitar cover", "drum cover", "instrumental cover",
   "vocals cover", "acoustic version", "arrangement",
   "cover version", "cover by",
   "歌ってみた", "弾いてみた", "叩いてみた", "弾き語り", "弾き語ってみた",
   "カバー", "アレンジ", "ピアノ", "ギター", "バンドカバー", "インスト",
   "アコースティック", "歌わせていただきました", "歌ってみた"]

/-- The noise-keyword table of `classify_video_title`. -/
def noise_keywords : List String :=
  ["official music video", "official video", "mv", "m/v",
   "official audio", "lyric", "lyrics", "karaoke",
   "remix", "slowed", "reverb", "reaction",
   "live", "performance", "short", "shorts",
   "teaser", "trailer", "full album", "concert",
   "公式", "ミュージックビデオ", "歌詞", "カラオケ", "ライブ",
   "生放送", "ショート"]

/-- One keyword hit of `classify_video_title`: `word in t or word in tj`
where `t` is the lower-cased and `tj` the raw title. -/
def titleHit (word title : String) : Bool :=
  subStr word (strLower title) || subStr word title

/-- `classify_video_title`: cover keywords are scanned first, then noise
keywords; an unmatched title defaults to noise. -/
def classify_video_title (title : String) : String :=
  if cover_keywords.any (fun word => titleHit word title) then "cover"
  else if noise_keywords.any (fun word => titleHit word title) then "noise"
  else "noise"

/-! ### Trend scorer -/

/-- `round(x, 1)` of the score value (the claims are insensitive to the
half-ulp tie behavior where Python`s float rounding is round-half-even). -/
noncomputable def round1 (x : Real) : Real := ((round (x * 10) : Int) : Real) / 10

/-- The per-record recency weight of `calculate_trend_score`:
`days_ago = (now - upload_date).days` (an integer floor of the real-valued
time difference, in days) and `max(0, 1 - min(days_ago / 365, 1))`. -/
noncomputable def recencyWeight (now : Real) (uploadDay : Nat) : Real :=
  let days_ago : Int := Int.floor (now - (uploadDay : Real))
  max 0 (1 - min ((days_ago : Real) / 365) 1)

/-- The date-parsing loop of `calculate_trend_score`: every record must
carry an `upload_date` key (a missing key raises `KeyError`) and every
date string must parse (`none` models the uncaught parse error). -/
def trendDates : List Video → Option (List Nat)
  | [] => some []
  | v :: rest =>
    match v.upload_date with
    | none => none
    | some s =>
      match parseFlex s, trendDates rest with
      | some d, some ds => some (d :: ds)
      | _, _ => none

/-- `calculate_trend_score`: 0 on an empty list, otherwise
`round(100 * (0.4 * avg_recency + 0.4 * log1p(total_views) / 15
+ 0.2 * min(count, 50) / 50), 1)`; `now` is the wall-clock time
(`datetime.now()`) in days. -/
noncomputable def calculate_trend_score (now : Real) (videos : List Video) :
    Option Real :=
  if videos.isEmpty then some 0 else
  match trendDates videos with
  | none => none
  | some ds =>
    let recency_scores := ds.map (fun d => recencyWeight now d)
    let total_views : Int := (videos.map (fun v => v.views)).sum
    let avg_recency : Real := recency_scores.sum / (recency_scores.length : Real)
    let num_covers := videos.length
    let score : Real :=
      avg_recency * (0.4 : Real)
        + Real.log (1 + (total_views : Real)) / 15 * (0.4 : Real)
        + ((min num_covers 50 : Nat) : Real) / 50 * (0.2 : Real)
    some (round1 (score * 100))

/-! ### Monthly aggregator -/

/-- The month-key list of `get_monthly_upload_data`: one key per present
upload date, `none` as soon as one present date fails to parse
(`strptime` raises and the exception propagates). -/
def monthsOf : List String → Option (List String)
  | [] => some []
  | d :: rest =>
    match monthKey d, monthsOf rest with
    | some m, some ms => some (m :: ms)
    | _, _ => none

/-- `get_monthly_upload_data`: collect the present upload dates, turn each
into a `YYYY-MM` key, sort the distinct keys and count occurrences.
`none` models the `ValueError` escaping when a present date is
unparsable. -/
def get_monthly_upload_data (videos : List Video) :
    Option (List String × List Nat) :=
  let upload_dates := videos.filterMap (fun v => v.upload_date)
  match monthsOf upload_dates with
  | none => none
  | some months =>
    let sorted_months := List.insertionSort (fun a b => a ≤ b) months.dedup
    some (sorted_months, sorted_months.map (fun m => months.count m))

/-- Does a record carry a present, parsable upload date?  (The records
counted by the claim about `get_monthly_upload_data`.) -/
def hasValidDate (v : Video) : Bool :=
  match v.upload_date with
  | some s => (monthKey s).isSome
  | none => false

/-- Every present upload date of the list parses (records without the
key are allowed): the condition under which `get_monthly_upload_data`
returns instead of raising. -/
def presentDatesParse (videos : List Video) : Bool :=
  videos.all (fun v =>
    match v.upload_date with
    | some s => (monthKey s).isSome
    | none => true)

end Analytics

namespace ML

/-! ## utils/ml_classifier.py -/

/-- Keyword bucket (ml_classifier module). -/
def VOCAL_KEYWORDS : List String :=
  ["vocal", "vocals", "a cappella", "a-capella", "vocal cover", "sing",
   "歌ってみた", "ボーカル", "ボーカルカバー", "アカペラ"]

/-- Keyword bucket (ml_classifier module). -/
def INSTRUMENTAL_KEYWORDS : List String :=
  ["instrumental", "inst", "instrumental cover", "piano", "guitar",
   "drum", "bass", "solo", "弾いてみた", "インスト", "ピアノ", "ギター"]

/-- Keyword bucket (ml_classifier module). -/
def ACOUSTIC_KEYWORDS : List String :=
  ["acoustic", "acoustic version", "unplugged", "アコースティック", "アコギ"]

/-- Keyword bucket (ml_classifier module). -/
def BAND_KEYWORDS : List String :=
  ["band", "full band", "arrangement", "バンドカバー", "編成",
   "full arrangement"]

/-- `FALLBACK_NAME`. -/
def FALLBACK_NAME : String := "Other / Remix"

/-- `_text_for_video`: title and description joined and stripped. -/
def text_for_video (v : Video) : String :=
  pyStrip (v.title ++ (" ") ++ v.description)

/-- `_count_matches`: how many keywords of the bucket occur in the text. -/
def count_matches (text_lower : String) (keywords : List String) : Nat :=
  (keywords.filter (fun kw => subStr kw text_lower)).length

/-- Append a member text under its label, preserving dict insertion order
(`cluster_texts.setdefault(lab, []).append(text)`). -/
def insertText : List (Int × List String) → Int → String → List (Int × List String)
  | [], lab, txt => [(lab, [txt])]
  | (l, ts) :: rest, lab, txt =>
    if l = lab then (l, ts ++ [txt]) :: rest
    else (l, ts) :: insertText rest lab txt

/-- The `cluster_texts` dict of `map_clusters_to_names`, as an insertion
ordered association list from label to lower-cased member texts. -/
def groupByLabel (pairs : List (Int × String)) : List (Int × List String) :=
  pairs.foldl (fun acc p => insertText acc p.1 p.2) []

/-- The `max(counts.items(), key=...)` step over the insertion-ordered
counts dict (vocal, instrumental, acoustic, band): Python `max` keeps the
earlier entry on ties because it only replaces on a strict increase. -/
def pickBest (v i a b : Nat) : String × Nat :=
  let b1 : String × Nat := ("Vocal cover", v)
  let b2 := if b1.2 < i then (("Instrumental" : String), i) else b1
  let b3 := if b2.2 < a then (("Acoustic / Soft" : String), a) else b2
  if b3.2 < b then (("Band / Full Arrangement" : String), b) else b3

/-- The per-cluster naming step of `map_clusters_to_names`: sum keyword
hits per bucket over the member texts, pick the best bucket, fall back
when every count is zero. -/
def chooseName (texts : List String) : String :=
  let vocal_count := (texts.map (fun t => count_matches t VOCAL_KEYWORDS)).sum
  let inst_count := (texts.map (fun t => count_matches t INSTRUMENTAL_KEYWORDS)).sum
  let acou_count := (texts.map (fun t => count_matches t ACOUSTIC_KEYWORDS)).sum
  let band_count := (texts.map (fun t => count_matches t BAND_KEYWORDS)).sum
  let best := pickBest vocal_count inst_count acou_count band_count
  if best.2 = 0 then FALLBACK_NAME else best.1

/-- `map_clusters_to_names`. -/
def map_clusters_to_names (videos : List Video) (labels : List Int) :
    List (Int × String) :=
  (groupByLabel
      (List.zip labels (videos.map (fun v => strLower (text_for_video v))))).map
    (fun p => (p.1, chooseName p.2))

/-- The naming rule as the specification words it: the fixed fallback name
when all four counts are zero, otherwise the first bucket in the priority
order vocal, instrumental, acoustic, band whose count attains the
maximum. -/
def nameSpec (v i a b : Nat) : String :=
  let m := max (max v i) (max a b)
  if m = 0 then FALLBACK_NAME
  else if v = m then "Vocal cover"
  else if i = m then "Instrumental"
  else if a = m then "Acoustic / Soft"
  else "Band / Full Arrangement"

/-- One scatter-plot point of the dict built for Chart.js. -/
structure PlotPoint where
  x : Real
  y : Real
  label : String
  title : String

/-- The two return shapes of `cluster_cover_videos`: the degenerate branch
returns the bare Python tuple `(labels_list, cluster_name_map)`, the main
branch returns the four-entry result dict. -/
inductive ClusterResult where
  | pair (labels : List Int) (cluster_name_map : List (Int × String))
  | table (labels : List Int) (cluster_name_map : List (Int × String))
      (plot_data : List PlotPoint) (top_keywords : List (String × List String))

/-- Is the result the dict-shaped value carrying plot data and keywords? -/
def ClusterResult.isTable : ClusterResult → Bool
  | .pair _ _ => false
  | .table _ _ _ _ => true

/-- The seeded external ML collaborators used by the main branch of
`cluster_cover_videos`: k-means labels over the TF-IDF matrix of the
corpus, the t-SNE 2D projection, and the centroid top-term extraction of
`get_top_keywords_per_cluster`. -/
structure MLEngines where
  kmeansLabels : List String → List Int
  tsneCoords : List String → List (Real × Real)
  topKeywords : List (Int × String) → List (String × List String)

/-- The `plot_data` loop: one point per video, with the cluster name
looked up in the name map (defaulting to "Other"). -/
def buildPlotData (videos : List Video) (labels : List Int)
    (coords : List (Real × Real)) (nameMap : List (Int × String)) :
    List PlotPoint :=
  (List.zip videos (List.zip labels coords)).map
    (fun p =>
      { x := p.2.2.1, y := p.2.2.2,
        label := (List.lookup p.2.1 nameMap).getD ("Other"),
        title := p.1.title })

/-- `cluster_cover_videos`: below 4 records the fallback tuple is
returned; otherwise the corpus is vectorized, clustered and projected and
the result dict is returned. -/
def cluster_cover_videos (E : MLEngines) (videos : List Video) : ClusterResult :=
  let num_clusters := 4
  if videos.length < num_clusters then
    ClusterResult.pair (List.replicate videos.length 0) [((0 : Int), FALLBACK_NAME)]
  else
    let corpus := videos.map text_for_video
    let labels := E.kmeansLabels corpus
    let cluster_name_map := map_clusters_to_names videos labels
    let top_keywords := E.topKeywords cluster_name_map
    let coords := E.tsneCoords corpus
    ClusterResult.table labels cluster_name_map
      (buildPlotData videos labels coords cluster_name_map) top_keywords

/-- A degenerate engine instance (empty labels, no coordinates, no
keywords), used only to instantiate universally quantified statements at
concrete inputs. -/
def trivialEngines : MLEngines :=
  ⟨fun _ => [], fun _ => [], fun _ => []⟩

end ML

namespace App

/-! ## app.py — the orchestrator's clustering step

Python call binding: `cluster_cover_videos` is defined with the parameter
list `(videos, max_features=800)`, and the orchestrator invokes it as
`cluster_cover_videos(cover_videos, song_query=song_query)`.  A keyword
argument that names no free parameter raises `TypeError` before the
function body runs. -/

/-- The parameter names of `def cluster_cover_videos(videos, max_features=800)`. -/
def cluster_cover_videos_params : List String := ["videos", "max_features"]

/-- The keyword-argument names at the orchestrator call site
`cluster_cover_videos(cover_videos, song_query=song_query)`. -/
def results_cluster_call_kwargs : List String := ["song_query"]

/-- Python call binding succeeds iff the positional arguments fit and each
keyword argument names a parameter not already bound positionally. -/
def acceptsCall (params : List String) (numPositional : Nat)
    (kwargs : List String) : Bool :=
  decide (numPositional ≤ params.length)
    && kwargs.all (fun k => (params.drop numPositional).contains k)

/-- The clustering step of the `results` view: the call as written in
app.py, raising `TypeError` when the binding fails. -/
def results_cluster_step (E : ML.MLEngines) (cover_videos : List Video) :
    Except String ML.ClusterResult :=
  if acceptsCall cluster_cover_videos_params 1 results_cluster_call_kwargs then
    Except.ok (ML.cluster_cover_videos E cover_videos)
  else
    Except.error
      ("TypeError: cluster_cover_videos() got an unexpected keyword argument")

end App

/-! ## Theorems -/

/-- Claim C1: the spec promises that for every non-empty song query the
call into the clustering stage completes and the presentation layer
receives a complete result object.  The code violates this: the
orchestrator passes the keyword argument `song_query`, which
`cluster_cover_videos` does not accept, so the binding raises `TypeError`
for every cover list (every non-empty query reaches this call) and the
request aborts. -/
theorem claim_C1_call_never_completes (E : ML.MLEngines) (cover_videos : List Video) :
    App.results_cluster_step E cover_videos =
      Except.error
        ("TypeError: cluster_cover_videos() got an unexpected keyword argument") := by
  have h : App.acceptsCall App.cluster_cover_videos_params 1
      App.results_cluster_call_kwargs = false := by decide
  simp [App.results_cluster_step, h]

/-- Claim C3: below four records every record is assigned cluster id 0 and
the single cluster is named "Other / Remix" — but the code returns the
bare tuple `(labels, name_map)` with no plot-data or keyword entries at
all (not empty ones), which is also the wrong shape for the orchestrator. -/
theorem claim_C3_fallback_shape (E : ML.MLEngines) (videos : List Video)
    (h : videos.length < 4) :
    ML.cluster_cover_videos E videos =
      ML.ClusterResult.pair (List.replicate videos.length 0)
        [((0 : Int), ML.FALLBACK_NAME)]
    ∧ (ML.cluster_cover_videos E videos).isTable = false := by
  constructor
  · simp [ML.cluster_cover_videos, h]
  · simp [ML.cluster_cover_videos, h, ML.ClusterResult.isTable]

/-- Witness for C3 at three concrete records. -/
theorem claim_C3_fallback_shape_witness :
    ML.cluster_cover_videos ML.trivialEngines
        [⟨"a", "", 0, none⟩, ⟨"b", "", 0, none⟩, ⟨"c", "", 0, none⟩] =
      ML.ClusterResult.pair [0, 0, 0] [((0 : Int), ML.FALLBACK_NAME)]
    ∧ (ML.cluster_cover_videos ML.trivialEngines
        [⟨"a", "", 0, none⟩, ⟨"b", "", 0, none⟩, ⟨"c", "", 0, none⟩]).isTable
        = false := by
  have h := claim_C3_fallback_shape ML.trivialEngines
    [⟨"a", "", 0, none⟩, ⟨"b", "", 0, none⟩, ⟨"c", "", 0, none⟩] (by decide)
  simpa [List.replicate] using h

/-- Claim C6: a title containing any cover keyword (ASCII matched
case-insensitively via the lower-cased title, listed non-ASCII tokens
exactly) classifies as "cover" regardless of co-occurring noise keywords;
a title matching no keyword of either bucket classifies as "noise"; and
the classifier is total with range {"cover", "noise"}. -/
theorem claim_C6_title_classifier (title : String) :
    (Analytics.cover_keywords.any (fun word => Analytics.titleHit word title) = true →
      Analytics.classify_video_title title = "cover")
    ∧ (Analytics.cover_keywords.any (fun word => Analytics.titleHit word title) = false →
        Analytics.noise_keywords.any (fun word => Analytics.titleHit word title) = false →
        Analytics.classify_video_title title = "noise")
    ∧ (Analytics.classify_video_title title = "cover"
        ∨ Analytics.classify_video_title title = "noise") := by
  refine ⟨fun hc => ?_, fun hc hn => ?_, ?_⟩
  · simp [Analytics.classify_video_title, hc]
  · simp [Analytics.classify_video_title, hc, hn]
  · unfold Analytics.classify_video_title
    split_ifs <;> simp

/-- Witness for C6: a title with a cover and a noise keyword classifies
as cover; an unmatched title classifies as noise. -/
theorem claim_C6_title_classifier_witness :
    Analytics.classify_video_title ("Song cover MV") = "cover"
    ∧ Analytics.classify_video_title ("hello") = "noise" :=
  ⟨(claim_C6_title_classifier ("Song cover MV")).1 (by decide),
   (claim_C6_title_classifier ("hello")).2.1 (by decide) (by decide)⟩

/-- Claim C7: the cover-type buckets are evaluated acoustic first, so a
video whose search text matches both an acoustic and a band keyword is
classified "Acoustic / Soft", never "Band / Full Arrangement". -/
theorem claim_C7_acoustic_priority (video : Video)
    (ha : Analytics.ACOUSTIC_KEYWORDS.any
        (fun kw => subStr kw (strLower (Analytics.searchTextRaw video))) = true)
    (_hb : Analytics.BAND_KEYWORDS.any
        (fun kw => subStr kw (strLower (Analytics.searchTextRaw video))) = true) :
    Analytics.classify_cover_type video = Analytics.coverTypeAcoustic
    ∧ Analytics.classify_cover_type video ≠ Analytics.coverTypeBand := by
  have hres : Analytics.classify_cover_type video = Analytics.coverTypeAcoustic := by
    simp [Analytics.classify_cover_type, ha]
  refine ⟨hres, ?_⟩
  rw [hres]
  decide

/-- Witness for C7: a title matching both "acoustic" and "band". -/
theorem claim_C7_acoustic_priority_witness :
    Analytics.classify_cover_type ⟨"acoustic band cover", "", 0, none⟩ =
      Analytics.coverTypeAcoustic
    ∧ Analytics.classify_cover_type ⟨"acoustic band cover", "", 0, none⟩ ≠
      Analytics.coverTypeBand :=
  claim_C7_acoustic_priority ⟨"acoustic band cover", "", 0, none⟩
    (by decide) (by decide)

/-! ### Cluster naming (C8, C10) -/

/-- The running maximum kept by the Python `max` loop is the maximum of
all four counts. -/
theorem pickBest_snd (v i a b : Nat) :
    (ML.pickBest v i a b).2 = max (max v i) (max a b) := by
  simp only [ML.pickBest]
  split_ifs <;> simp_all <;> omega

/-- The bucket kept by the Python `max` loop is the first bucket, in the
order vocal, instrumental, acoustic, band, whose count attains the
maximum (ties keep the earlier bucket). -/
theorem pickBest_fst (v i a b : Nat) :
    (ML.pickBest v i a b).1 =
      (if v = max (max v i) (max a b) then ("Vocal cover" : String)
       else if i = max (max v i) (max a b) then ("Instrumental" : String)
       else if a = max (max v i) (max a b) then ("Acoustic / Soft" : String)
       else ("Band / Full Arrangement" : String)) := by
  simp only [ML.pickBest]
  split_ifs <;> first | rfl | omega

/-- The pick-then-fallback step equals the specification naming rule. -/
theorem pickBest_decision (v i a b : Nat) :
    (if (ML.pickBest v i a b).2 = 0 then ML.FALLBACK_NAME
     else (ML.pickBest v i a b).1) = ML.nameSpec v i a b := by
  rw [pickBest_fst, pickBest_snd]
  rfl

/-- `chooseName` implements the specification naming rule on the summed
per-bucket keyword counts of the member texts. -/
theorem chooseName_eq_nameSpec (texts : List String) :
    ML.chooseName texts =
      ML.nameSpec
        ((texts.map (fun t => ML.count_matches t ML.VOCAL_KEYWORDS)).sum)
        ((texts.map (fun t => ML.count_matches t ML.INSTRUMENTAL_KEYWORDS)).sum)
        ((texts.map (fun t => ML.count_matches t ML.ACOUSTIC_KEYWORDS)).sum)
        ((texts.map (fun t => ML.count_matches t ML.BAND_KEYWORDS)).sum) := by
  simp only [ML.chooseName]
  exact pickBest_decision _ _ _ _

/-- Every name chosen for a cluster is one of the four bucket display
names or the fallback name. -/
theorem chooseName_mem_names (texts : List String) :
    ML.chooseName texts ∈
      ["Vocal cover", "Instrumental", "Acoustic / Soft",
       "Band / Full Arrangement", "Other / Remix"] := by
  rw [chooseName_eq_nameSpec]
  simp only [ML.nameSpec]
  split_ifs <;> simp [ML.FALLBACK_NAME]

/-- Key membership after inserting one text under a label. -/
theorem mem_map_fst_insertText (acc : List (Int × List String)) (lab : Int)
    (txt : String) (q : Int) :
    q ∈ (ML.insertText acc lab txt).map Prod.fst
      ↔ q ∈ acc.map Prod.fst ∨ q = lab := by
  induction acc with
  | nil => simp [ML.insertText]
  | cons p rest ih =>
    obtain ⟨l, ts⟩ := p
    have e : ML.insertText ((l, ts) :: rest) lab txt
        = if l = lab then (l, ts ++ [txt]) :: rest
          else (l, ts) :: ML.insertText rest lab txt := rfl
    rw [e]
    by_cases h : l = lab
    · rw [if_pos h]
      subst h
      simp only [List.map_cons, List.mem_cons]
      tauto
    · rw [if_neg h]
      simp only [List.map_cons, List.mem_cons, ih]
      tauto

/-- Key membership of the grouping fold. -/
theorem mem_map_fst_groupFold (pairs : List (Int × String))
    (acc : List (Int × List String)) (q : Int) :
    q ∈ (pairs.foldl (fun a p => ML.insertText a p.1 p.2) acc).map Prod.fst
      ↔ q ∈ acc.map Prod.fst ∨ q ∈ pairs.map Prod.fst := by
  induction pairs generalizing acc with
  | nil => simp
  | cons p rest ih =>
    simp only [List.foldl_cons, ih, mem_map_fst_insertText, List.map_cons,
      List.mem_cons]
    tauto

/-- The keys of `cluster_texts` are exactly the labels occurring in the
zipped input. -/
theorem mem_map_fst_groupByLabel (pairs : List (Int × String)) (q : Int) :
    q ∈ (ML.groupByLabel pairs).map Prod.fst ↔ q ∈ pairs.map Prod.fst := by
  unfold ML.groupByLabel
  rw [mem_map_fst_groupFold]
  simp

/-- A label has a name in `map_clusters_to_names` iff it is a key of the
grouping of the zipped input. -/
theorem exists_name_iff_mem_keys (videos : List Video) (labels : List Int)
    (q : Int) :
    (∃ nm, (q, nm) ∈ ML.map_clusters_to_names videos labels)
      ↔ q ∈ (List.zip labels
          (videos.map (fun v => strLower (ML.text_for_video v)))).map Prod.fst := by
  rw [← mem_map_fst_groupByLabel]
  unfold ML.map_clusters_to_names
  constructor
  · rintro ⟨nm, h⟩
    rw [List.mem_map] at h
    obtain ⟨p, hp, he⟩ := h
    have : p.1 = q := congrArg Prod.fst he
    exact List.mem_map.mpr ⟨p, hp, this⟩
  · intro h
    rw [List.mem_map] at h
    obtain ⟨p, hp, hq⟩ := h
    exact ⟨ML.chooseName p.2,
      List.mem_map.mpr ⟨p, hp, by rw [← hq]⟩⟩

/-- Claim C10: for equal-length `videos` and `labels`, the mapping
returned by `map_clusters_to_names` has as key set exactly the labels
occurring in `labels`, and every value is one of the four bucket display
names or "Other / Remix" — so every label produced by the cluster engine
resolves to a name. -/
theorem claim_C10_name_map_total (videos : List Video) (labels : List Int)
    (h : videos.length = labels.length) :
    (∀ q : Int,
      (∃ nm, (q, nm) ∈ ML.map_clusters_to_names videos labels) ↔ q ∈ labels)
    ∧ ∀ q nm, (q, nm) ∈ ML.map_clusters_to_names videos labels →
        nm ∈ ["Vocal cover", "Instrumental", "Acoustic / Soft",
              "Band / Full Arrangement", "Other / Remix"] := by
  constructor
  · intro q
    rw [exists_name_iff_mem_keys]
    rw [List.map_fst_zip]
    simp [← h]
  · intro q nm hmem
    unfold ML.map_clusters_to_names at hmem
    rw [List.mem_map] at hmem
    obtain ⟨p, hp, he⟩ := hmem
    have : ML.chooseName p.2 = nm := congrArg Prod.snd he
    rw [← this]
    exact chooseName_mem_names p.2

/-- Witness for C10 at one record and one label. -/
theorem claim_C10_name_map_total_witness :
    (∃ nm, ((0 : Int), nm) ∈
      ML.map_clusters_to_names [⟨"vocal", "", 0, none⟩] [0])
    ∧ (((0 : Int), ("Vocal cover" : String)) ∈
        ML.map_clusters_to_names [⟨"vocal", "", 0, none⟩] [0] →
        ("Vocal cover" : String) ∈
          ["Vocal cover", "Instrumental", "Acoustic / Soft",
           "Band / Full Arrangement", "Other / Remix"]) := by
  have h := claim_C10_name_map_total [⟨"vocal", "", 0, none⟩] [0] rfl
  exact ⟨(h.1 0).mpr (by decide), h.2 0 ("Vocal cover")⟩

/-- Claim C8: `map_clusters_to_names` assigns each cluster (each key of
the grouped member texts) the name given by the rule: the bucket with the
strictly highest summed keyword-hit count, "Other / Remix" when all four
counts are zero, and on ties the first bucket in the fixed priority order
vocal, instrumental, acoustic, band. -/
theorem claim_C8_majority_naming (videos : List Video) (labels : List Int)
    (lab : Int) (texts : List String)
    (h : (lab, texts) ∈ ML.groupByLabel
        (List.zip labels (videos.map (fun v => strLower (ML.text_for_video v))))) :
    (lab, ML.nameSpec
        ((texts.map (fun t => ML.count_matches t ML.VOCAL_KEYWORDS)).sum)
        ((texts.map (fun t => ML.count_matches t ML.INSTRUMENTAL_KEYWORDS)).sum)
        ((texts.map (fun t => ML.count_matches t ML.ACOUSTIC_KEYWORDS)).sum)
        ((texts.map (fun t => ML.count_matches t ML.BAND_KEYWORDS)).sum))
      ∈ ML.map_clusters_to_names videos labels := by
  unfold ML.map_clusters_to_names
  refine List.mem_map.mpr ⟨(lab, texts), h, ?_⟩
  rw [chooseName_eq_nameSpec]

/-- Witness for C8 at one record and one label. -/
theorem claim_C8_majority_naming_witness :
    ((0 : Int), ML.nameSpec
        ((List.map (fun t => ML.count_matches t ML.VOCAL_KEYWORDS) [("vocal")]).sum)
        ((List.map (fun t => ML.count_matches t ML.INSTRUMENTAL_KEYWORDS) [("vocal")]).sum)
        ((List.map (fun t => ML.count_matches t ML.ACOUSTIC_KEYWORDS) [("vocal")]).sum)
        ((List.map (fun t => ML.count_matches t ML.BAND_KEYWORDS) [("vocal")]).sum))
      ∈ ML.map_clusters_to_names [⟨"vocal", "", 0, none⟩] [0] :=
  claim_C8_majority_naming [⟨"vocal", "", 0, none⟩] [0] 0 [("vocal")] (by decide)

/-! ### Monthly aggregator (C9) -/

/-- When every date of the list has a month key, the key loop succeeds
and produces one key per date. -/
theorem monthsOf_eq_some (dates : List String)
    (h : ∀ s ∈ dates, (monthKey s).isSome = true) :
    ∃ months, Analytics.monthsOf dates = some months
      ∧ months.length = dates.length := by
  induction dates with
  | nil => exact ⟨[], rfl, rfl⟩
  | cons d rest ih =>
    obtain ⟨m, hm⟩ := Option.isSome_iff_exists.mp (h d (List.mem_cons_self d rest))
    obtain ⟨ms, hms, hlen⟩ := ih (fun s hs => h s (List.mem_cons_of_mem d hs))
    exact ⟨m :: ms, by simp [Analytics.monthsOf, hm, hms], by simp [hlen]⟩

/-- Under `presentDatesParse`, every collected upload date has a month
key. -/
theorem presentDatesParse_mem (videos : List Video)
    (h : Analytics.presentDatesParse videos = true) :
    ∀ s ∈ videos.filterMap (fun v => v.upload_date),
      (monthKey s).isSome = true := by
  intro s hs
  rw [List.mem_filterMap] at hs
  obtain ⟨v, hv, he⟩ := hs
  rw [Analytics.presentDatesParse, List.all_eq_true] at h
  have hc := h v hv
  rw [he] at hc
  exact hc

/-- Under `presentDatesParse`, the number of collected upload dates is
the number of records with a valid upload date. -/
theorem filterMap_dates_length (videos : List Video)
    (h : Analytics.presentDatesParse videos = true) :
    (videos.filterMap (fun v => v.upload_date)).length
      = videos.countP (fun v => Analytics.hasValidDate v) := by
  induction videos with
  | nil => rfl
  | cons v rest ih =>
    rw [Analytics.presentDatesParse, List.all_cons, Bool.and_eq_true] at h
    have hrest := ih h.2
    cases hv : v.upload_date with
    | none =>
      simp [List.filterMap_cons, hv, List.countP_cons, Analytics.hasValidDate,
        hrest]
    | some s =>
      have hk : (monthKey s).isSome = true := by
        have hc := h.1
        rw [hv] at hc
        exact hc
      simp [List.filterMap_cons, hv, List.countP_cons, Analytics.hasValidDate,
        hk, hrest]

/-- Claim C9, amended: provided every present upload date parses (the
function raises otherwise), `get_monthly_upload_data` returns two
parallel sequences, the distinct month keys strictly increasing, with one
count per key, the counts summing to the number of records with a valid
upload date (missing-date records are skipped), and empty input yields
two empty sequences. -/
theorem claim_C9_monthly_aggregation (videos : List Video)
    (h : Analytics.presentDatesParse videos = true) :
    ∃ months counts,
      Analytics.get_monthly_upload_data videos = some (months, counts)
      ∧ List.Sorted (fun a b : String => a < b) months
      ∧ counts.length = months.length
      ∧ counts.sum = videos.countP (fun v => Analytics.hasValidDate v)
      ∧ (videos = [] → months = [] ∧ counts = []) := by
  obtain ⟨ms, hms, hlen⟩ :=
    monthsOf_eq_some (videos.filterMap (fun v => v.upload_date))
      (presentDatesParse_mem videos h)
  refine ⟨List.insertionSort (fun a b => a ≤ b) ms.dedup,
    (List.insertionSort (fun a b => a ≤ b) ms.dedup).map (fun m => ms.count m),
    ?_, ?_, ?_, ?_, ?_⟩
  · simp [Analytics.get_monthly_upload_data, hms]
  · have hsorted : List.Sorted (fun a b : String => a ≤ b)
        (List.insertionSort (fun a b => a ≤ b) ms.dedup) :=
      List.sorted_insertionSort _ _
    have hnodup : (List.insertionSort (fun a b => a ≤ b) ms.dedup).Nodup :=
      ((List.perm_insertionSort _ _).nodup_iff).mpr (List.nodup_dedup ms)
    exact hsorted.lt_of_le hnodup
  · simp
  · have hperm : List.Perm (List.insertionSort (fun a b => a ≤ b) ms.dedup)
        ms.dedup :=
      List.perm_insertionSort _ _
    have hsum :
        ((List.insertionSort (fun a b => a ≤ b) ms.dedup).map
            (fun m => ms.count m)).sum
          = (ms.dedup.map (fun m => ms.count m)).sum :=
      (hperm.map _).sum_eq
    rw [hsum, List.sum_map_count_dedup_eq_length, hlen,
      filterMap_dates_length videos h]
  · intro hv
    subst hv
    have : ms = [] := by
      have : Analytics.monthsOf [] = some ms := hms
      simpa [Analytics.monthsOf] using this.symm
    subst this
    simp

/-- Witness for C9: one dated record and one record without the key. -/
theorem claim_C9_monthly_aggregation_witness :
    ∃ months counts,
      Analytics.get_monthly_upload_data
          [⟨"a", "", 0, some ("2020-05-06")⟩, ⟨"b", "", 0, none⟩]
        = some (months, counts)
      ∧ List.Sorted (fun a b : String => a < b) months
      ∧ counts.length = months.length
      ∧ counts.sum =
          ([⟨"a", "", 0, some ("2020-05-06")⟩, ⟨"b", "", 0, none⟩] :
              List Video).countP (fun v => Analytics.hasValidDate v)
      ∧ (([⟨"a", "", 0, some ("2020-05-06")⟩, ⟨"b", "", 0, none⟩] :
            List Video) = [] → months = [] ∧ counts = []) :=
  claim_C9_monthly_aggregation
    [⟨"a", "", 0, some ("2020-05-06")⟩, ⟨"b", "", 0, none⟩] (by decide)

/-- Counterexample for C9 as stated: a record whose upload date is
present but unparsable makes the function raise (return nothing), while
the claim promises two sequences whose counts sum over the valid-date
records (here zero, i.e. a pair of empty lists). -/
theorem claim_C9_counterexample :
    Analytics.get_monthly_upload_data [⟨"a", "", 0, some ("not-a-date")⟩]
      = none := by
  decide

/-! ### Recency weight and rounding (C4, groundwork for C2/C5) -/

/-- The recency weight is never negative (outer clamp). -/
theorem recencyWeight_nonneg (now : Real) (uploadDay : Nat) :
    0 ≤ Analytics.recencyWeight now uploadDay := by
  simp only [Analytics.recencyWeight]
  exact le_max_left 0 _

/-- For a non-future upload date the recency weight is at most one. -/
theorem recencyWeight_le_one (now : Real) (uploadDay : Nat)
    (h : ((uploadDay : Nat) : Real) ≤ now) :
    Analytics.recencyWeight now uploadDay ≤ 1 := by
  simp only [Analytics.recencyWeight]
  have h0 : (0 : Int) ≤ Int.floor (now - ((uploadDay : Nat) : Real)) :=
    Int.le_floor.mpr (by simpa using sub_nonneg.mpr h)
  have hmin : (0 : Real) ≤
      min (((Int.floor (now - ((uploadDay : Nat) : Real)) : Int) : Real) / 365) 1 := by
    refine le_min ?_ zero_le_one
    have : (0 : Real) ≤ ((Int.floor (now - ((uploadDay : Nat) : Real)) : Int) : Real) := by
      exact_mod_cast h0
    linarith
  refine max_le (by norm_num) (by linarith)

/-- A nonnegative value rounds to a nonnegative value. -/
theorem round1_nonneg (x : Real) (hx : 0 ≤ x) : 0 ≤ Analytics.round1 x := by
  simp only [Analytics.round1]
  have h1 : x * 10 - 1 / 2 < (round (x * 10) : Int) := sub_half_lt_round (x * 10)
  have h2 : ((-1 : Int) : Real) < ((round (x * 10) : Int) : Real) := by
    push_cast
    nlinarith
  have h3 : (-1 : Int) < round (x * 10) := by exact_mod_cast h2
  have h3' : (0 : Int) ≤ round (x * 10) := by omega
  have h4 : (0 : Real) ≤ ((round (x * 10) : Int) : Real) := by exact_mod_cast h3'
  linarith

/-- Rounding to one decimal cannot climb above an integer bound. -/
theorem round1_le_int (x : Real) (n : Int) (h : x ≤ (n : Real)) :
    Analytics.round1 x ≤ (n : Real) := by
  simp only [Analytics.round1]
  have h1 : (round (x * 10) : Int) ≤ x * 10 + 1 / 2 := round_le_add_half (x * 10)
  have h2 : ((round (x * 10) : Int) : Real) < ((10 * n + 1 : Int) : Real) := by
    push_cast
    nlinarith
  have h2' : round (x * 10) < 10 * n + 1 := by exact_mod_cast h2
  have h3 : round (x * 10) ≤ 10 * n := by omega
  have h4 : ((round (x * 10) : Int) : Real) ≤ ((10 * n : Int) : Real) := by
    exact_mod_cast h3
  push_cast at h4
  linarith

/-- Rounding to one decimal loses less than one twentieth. -/
theorem round1_gt (x : Real) : x - 1 / 20 < Analytics.round1 x := by
  simp only [Analytics.round1]
  have h1 : x * 10 - 1 / 2 < (round (x * 10) : Int) := sub_half_lt_round (x * 10)
  linarith

/-- Claim C4, amended: the per-record recency weight is never negative,
and it is at most 1 whenever the upload date does not lie in the future
of the evaluation time; for future upload dates it exceeds 1 (see the
counterexample). -/
theorem claim_C4_recency_range (now : Real) (uploadDay : Nat) :
    0 ≤ Analytics.recencyWeight now uploadDay
    ∧ (((uploadDay : Nat) : Real) ≤ now →
        Analytics.recencyWeight now uploadDay ≤ 1) :=
  ⟨recencyWeight_nonneg now uploadDay,
   fun h => recencyWeight_le_one now uploadDay h⟩

/-- Witness for C4: a record uploaded exactly at the evaluation time. -/
theorem claim_C4_recency_range_witness :
    0 ≤ Analytics.recencyWeight 0 0 ∧ Analytics.recencyWeight 0 0 ≤ 1 :=
  ⟨(claim_C4_recency_range 0 0).1,
   (claim_C4_recency_range 0 0).2 (by norm_num)⟩

/-- Counterexample for C4 as stated: an upload date 365 days in the
future of the evaluation time gives `days_ago = -365`, so the weight is
`max(0, 1 - min(-1, 1)) = 2 > 1` — the inner `min` only clamps from
above, not from below. -/
theorem claim_C4_counterexample : 1 < Analytics.recencyWeight 0 365 := by
  simp only [Analytics.recencyWeight]
  have hf : Int.floor ((0 : Real) - ((365 : Nat) : Real)) = (-365 : Int) := by
    rw [show ((0 : Real) - ((365 : Nat) : Real)) = ((-365 : Int) : Real) by
      push_cast; ring]
    exact Int.floor_intCast _
  rw [hf]
  have hmin : min (((-365 : Int) : Real) / 365) 1 = ((-365 : Int) : Real) / 365 := by
    refine min_eq_left ?_
    push_cast
    norm_num
  rw [hmin]
  refine lt_max_iff.mpr (Or.inr ?_)
  push_cast
  norm_num

/-! ### Trend scorer (C2, C5) -/

/-- The parsed day list has one entry per record. -/
theorem trendDates_length (videos : List Video) (ds : List Nat)
    (h : Analytics.trendDates videos = some ds) :
    ds.length = videos.length := by
  induction videos generalizing ds with
  | nil =>
    simp only [Analytics.trendDates] at h
    injection h with h
    subst h
    rfl
  | cons v rest ih =>
    cases hv : v.upload_date with
    | none => simp [Analytics.trendDates, hv] at h
    | some str =>
      cases hp : parseFlex str with
      | none => simp [Analytics.trendDates, hv, hp] at h
      | some d =>
        cases ht : Analytics.trendDates rest with
        | none => simp [Analytics.trendDates, hv, hp, ht] at h
        | some ds' =>
          have he : d :: ds' = ds := by
            have := h
            simp only [Analytics.trendDates, hv, hp, ht] at this
            injection this
          subst he
          simp [ih ds' ht]

/-- Every parsed day comes from the parse of some record's present
upload date. -/
theorem trendDates_mem (videos : List Video) (ds : List Nat)
    (h : Analytics.trendDates videos = some ds) :
    ∀ d ∈ ds, ∃ v ∈ videos, ∃ str, v.upload_date = some str
      ∧ parseFlex str = some d := by
  induction videos generalizing ds with
  | nil =>
    simp only [Analytics.trendDates] at h
    injection h with h
    subst h
    intro d hd
    exact absurd hd (List.not_mem_nil d)
  | cons v rest ih =>
    cases hv : v.upload_date with
    | none => simp [Analytics.trendDates, hv] at h
    | some str =>
      cases hp : parseFlex str with
      | none => simp [Analytics.trendDates, hv, hp] at h
      | some d0 =>
        cases ht : Analytics.trendDates rest with
        | none => simp [Analytics.trendDates, hv, hp, ht] at h
        | some ds' =>
          have he : d0 :: ds' = ds := by
            have := h
            simp only [Analytics.trendDates, hv, hp, ht] at this
            injection this
          subst he
          intro d hd
          rcases List.mem_cons.mp hd with h1 | h2
          · subst h1
            exact ⟨v, List.mem_cons_self v rest, str, hv, hp⟩
          · obtain ⟨w, hw, str', hstr', hp'⟩ := ih ds' ht d h2
            exact ⟨w, List.mem_cons_of_mem v hw, str', hstr', hp'⟩

/-- Claim C2, amended: the trend score is exactly 0 on the empty list and
is never negative for records with non-negative views; the upper bound
100 of the claim additionally requires the upload dates not to lie in the
future and `1 + total_views ≤ exp 15` (the logarithmic views term of the
formula is unbounded, see the counterexample). -/
theorem claim_C2_trend_score_range (now : Real) (videos : List Video)
    (s : Real) (hne : videos ≠ [])
    (hviews : ∀ v ∈ videos, 0 ≤ v.views)
    (hs : Analytics.calculate_trend_score now videos = some s) :
    Analytics.calculate_trend_score now ([] : List Video) = some 0
    ∧ 0 ≤ s
    ∧ ((∀ v ∈ videos, ∀ str d, v.upload_date = some str →
          parseFlex str = some d → ((d : Nat) : Real) ≤ now) →
        1 + (((videos.map (fun v => v.views)).sum : Int) : Real) ≤ Real.exp 15 →
        s ≤ 100) := by
  have hempty : Analytics.calculate_trend_score now ([] : List Video) = some 0 := by
    simp [Analytics.calculate_trend_score]
  unfold Analytics.calculate_trend_score at hs
  rw [if_neg (by simpa using hne)] at hs
  cases hd : Analytics.trendDates videos with
  | none => rw [hd] at hs; exact absurd hs (by simp)
  | some ds =>
    rw [hd] at hs
    dsimp only at hs
    have hs' := Option.some.inj hs
    subst hs'
    -- shared component facts
    have hRnn : ∀ x ∈ ds.map (fun d => Analytics.recencyWeight now d),
        (0 : Real) ≤ x := by
      intro x hx
      rw [List.mem_map] at hx
      obtain ⟨d, _, rfl⟩ := hx
      exact recencyWeight_nonneg now d
    have hsumnn : 0 ≤ (ds.map (fun d => Analytics.recencyWeight now d)).sum :=
      List.sum_nonneg hRnn
    have hlends : ds.length = videos.length := trendDates_length videos ds hd
    have hlenpos : 0 < ds.length := by
      rw [hlends]
      exact List.length_pos.mpr hne
    have havgnn :
        0 ≤ (ds.map (fun d => Analytics.recencyWeight now d)).sum /
            (((ds.map (fun d => Analytics.recencyWeight now d)).length : Nat) : Real) := by
      refine div_nonneg hsumnn ?_
      positivity
    have hTVnn : (0 : Int) ≤ (videos.map (fun v => v.views)).sum := by
      refine List.sum_nonneg ?_
      intro x hx
      rw [List.mem_map] at hx
      obtain ⟨v, hv, rfl⟩ := hx
      exact hviews v hv
    have hTVnn' : (0 : Real) ≤ (((videos.map (fun v => v.views)).sum : Int) : Real) := by
      exact_mod_cast hTVnn
    have hlognn : 0 ≤ Real.log (1 + (((videos.map (fun v => v.views)).sum : Int) : Real)) :=
      Real.log_nonneg (by linarith)
    have hminnn : (0 : Real) ≤ ((min videos.length 50 : Nat) : Real) / 50 :=
      div_nonneg (Nat.cast_nonneg _) (by norm_num)
    refine ⟨hempty, ?_, ?_⟩
    · refine round1_nonneg _ ?_
      have t1 : 0 ≤ (ds.map (fun d => Analytics.recencyWeight now d)).sum /
          (((ds.map (fun d => Analytics.recencyWeight now d)).length : Nat) : Real)
            * (0.4 : Real) := mul_nonneg havgnn (by norm_num)
      have t2 : 0 ≤ Real.log (1 + (((videos.map (fun v => v.views)).sum : Int) : Real))
          / 15 * (0.4 : Real) :=
        mul_nonneg (div_nonneg hlognn (by norm_num)) (by norm_num)
      have t3 : 0 ≤ ((min videos.length 50 : Nat) : Real) / 50 * (0.2 : Real) :=
        mul_nonneg hminnn (by norm_num)
      nlinarith
    · intro hpast hexp
      have hRle : ∀ x ∈ ds.map (fun d => Analytics.recencyWeight now d),
          x ≤ (1 : Real) := by
        intro x hx
        rw [List.mem_map] at hx
        obtain ⟨d, hdm, rfl⟩ := hx
        obtain ⟨v, hv, str, hstr, hp⟩ := trendDates_mem videos ds hd d hdm
        exact recencyWeight_le_one now d (hpast v hv str d hstr hp)
      have hsumle : (ds.map (fun d => Analytics.recencyWeight now d)).sum ≤
          (((ds.map (fun d => Analytics.recencyWeight now d)).length : Nat) : Real) := by
        have := List.sum_le_card_nsmul
          (ds.map (fun d => Analytics.recencyWeight now d)) 1 hRle
        simpa [nsmul_eq_mul] using this
      have hlenpos' : (0 : Real) <
          (((ds.map (fun d => Analytics.recencyWeight now d)).length : Nat) : Real) := by
        have : 0 < (ds.map (fun d => Analytics.recencyWeight now d)).length := by
          simpa using hlenpos
        exact_mod_cast this
      have havgle : (ds.map (fun d => Analytics.recencyWeight now d)).sum /
          (((ds.map (fun d => Analytics.recencyWeight now d)).length : Nat) : Real) ≤ 1 :=
        (div_le_one hlenpos').mpr hsumle
      have hlogle :
          Real.log (1 + (((videos.map (fun v => v.views)).sum : Int) : Real)) ≤ 15 :=
        (Real.log_le_iff_le_exp (by linarith)).mpr hexp
      have hminle : ((min videos.length 50 : Nat) : Real) ≤ 50 := by
        have : min videos.length 50 ≤ 50 := Nat.min_le_right _ _
        exact_mod_cast this
      refine le_trans (round1_le_int _ 100 ?_) (by norm_num)
      have t1 : (ds.map (fun d => Analytics.recencyWeight now d)).sum /
          (((ds.map (fun d => Analytics.recencyWeight now d)).length : Nat) : Real)
            * (0.4 : Real) ≤ (0.4 : Real) := by nlinarith
      have t2 : Real.log (1 + (((videos.map (fun v => v.views)).sum : Int) : Real))
          / 15 * (0.4 : Real) ≤ (0.4 : Real) := by nlinarith
      have t3 : ((min videos.length 50 : Nat) : Real) / 50 * (0.2 : Real)
          ≤ (0.2 : Real) := by nlinarith
      have hc : ((100 : Int) : Real) = 100 := by norm_num
      rw [hc]
      nlinarith

/-- A record uploaded exactly at the evaluation time has recency 1. -/
theorem recencyWeight_today (n : Nat) :
    Analytics.recencyWeight ((n : Nat) : Real) n = 1 := by
  simp only [Analytics.recencyWeight]
  rw [sub_self, Int.floor_zero, Int.cast_zero, zero_div,
    min_eq_left zero_le_one, sub_zero, max_eq_right zero_le_one]

/-- Exact tenths are fixed points of the one-decimal rounding. -/
theorem round1_tenths (n : Int) :
    Analytics.round1 (((n : Int) : Real) / 10) = ((n : Int) : Real) / 10 := by
  simp only [Analytics.round1]
  rw [div_mul_cancel₀, round_intCast]
  norm_num

/-- Evaluation of the trend score on a single record whose date parses. -/
theorem calculate_trend_score_single (now : Real) (t dsc : String) (vw : Int)
    (ud : String) (d : Nat)
    (hd : Analytics.trendDates [⟨t, dsc, vw, some ud⟩] = some [d]) :
    Analytics.calculate_trend_score now [⟨t, dsc, vw, some ud⟩]
      = some (Analytics.round1
          ((Analytics.recencyWeight now d * (0.4 : Real)
            + Real.log (1 + ((vw : Int) : Real)) / 15 * (0.4 : Real)
            + 1 / 50 * (0.2 : Real)) * 100)) := by
  unfold Analytics.calculate_trend_score
  rw [if_neg (by simp), hd]
  dsimp only
  have hmin : (min 1 50 : Nat) = 1 := by decide
  norm_num [hmin]

/-- Witness for C2: one record with zero views uploaded at the evaluation
time scores exactly 40.4, inside [0, 100]. -/
theorem claim_C2_trend_score_range_witness :
    Analytics.calculate_trend_score ((730425 : Nat) : Real)
        [⟨"t", "", 0, some ("2000-01-01")⟩] = some (202 / 5 : Real)
    ∧ 0 ≤ (202 / 5 : Real) ∧ (202 / 5 : Real) ≤ 100 := by
  have heval : Analytics.calculate_trend_score ((730425 : Nat) : Real)
      [⟨"t", "", 0, some ("2000-01-01")⟩] = some (202 / 5 : Real) := by
    rw [calculate_trend_score_single ((730425 : Nat) : Real) ("t") ("")
        0 ("2000-01-01") 730425 (by decide), recencyWeight_today 730425]
    have e1 : ((1 : Real) * (0.4 : Real)
        + Real.log (1 + ((0 : Int) : Real)) / 15 * (0.4 : Real)
        + 1 / 50 * (0.2 : Real)) * 100 = ((404 : Int) : Real) / 10 := by
      rw [show (1 + ((0 : Int) : Real)) = 1 by norm_num, Real.log_one]
      norm_num
    rw [e1, round1_tenths]
    norm_num
  have h := claim_C2_trend_score_range ((730425 : Nat) : Real)
    [⟨"t", "", 0, some ("2000-01-01")⟩] (202 / 5 : Real) (by simp)
    (by decide) heval
  refine ⟨heval, h.2.1, h.2.2 ?_ ?_⟩
  · intro v hv str d h1 h2
    rw [List.mem_singleton] at hv
    subst hv
    have h1' : some ("2000-01-01") = some str := h1
    injection h1' with h1'
    subst h1'
    have hp : parseFlex ("2000-01-01") = some 730425 := by decide
    rw [hp] at h2
    injection h2 with h2
    subst h2
    exact le_refl _
  · have h1 : (1 : Real) ≤ Real.exp 15 := Real.one_le_exp (by norm_num)
    simp only [List.map_cons, List.map_nil, List.sum_cons, List.sum_nil,
      Int.cast_zero, add_zero]
    exact h1

/-- Counterexample for C2 as stated: one record uploaded at the
evaluation time with 10^11 total views.  The logarithmic views term alone
contributes more than 61 points, so the score exceeds 100. -/
theorem claim_C2_counterexample :
    100 < (Analytics.calculate_trend_score ((730425 : Nat) : Real)
        [⟨"t", "", 100000000000, some ("2000-01-01")⟩]).getD 0 := by
  rw [calculate_trend_score_single ((730425 : Nat) : Real) ("t") ("")
      100000000000 ("2000-01-01") 730425 (by decide), recencyWeight_today 730425,
    Option.getD_some]
  have hlog : (23 : Real) < Real.log (1 + ((100000000000 : Int) : Real)) := by
    rw [Real.lt_log_iff_exp_lt (by norm_num)]
    calc Real.exp 23 = Real.exp 1 ^ 23 := by
          rw [← Real.exp_nat_mul]
          norm_num
      _ < (2.7182818286 : Real) ^ 23 := by
          gcongr
          exact Real.exp_one_lt_d9
      _ ≤ 1 + ((100000000000 : Int) : Real) := by norm_num
  have hgt := round1_gt (((1 : Real) * (0.4 : Real)
      + Real.log (1 + ((100000000000 : Int) : Real)) / 15 * (0.4 : Real)
      + 1 / 50 * (0.2 : Real)) * 100)
  set L := Real.log (1 + ((100000000000 : Int) : Real)) with hLdef
  have hE : (100 : Real) + 1 / 20 < ((1 : Real) * (0.4 : Real)
      + L / 15 * (0.4 : Real)
      + 1 / 50 * (0.2 : Real)) * 100 := by nlinarith [hlog]
  linarith [hgt, hE]

/-- Upload-date parsing of the trend scorer depends only on the
`upload_date` projection of the record list. -/
theorem trendDates_congr (v1 v2 : List Video)
    (h : v1.map (fun v => v.upload_date) = v2.map (fun v => v.upload_date)) :
    Analytics.trendDates v1 = Analytics.trendDates v2 := by
  induction v1 generalizing v2 with
  | nil =>
    have hv : v2 = [] := by
      cases v2 with
      | nil => rfl
      | cons w r => simp at h
    subst hv
    rfl
  | cons v rest ih =>
    cases v2 with
    | nil => simp at h
    | cons w rest2 =>
      simp only [List.map_cons, List.cons.injEq] at h
      simp only [Analytics.trendDates, h.1, ih rest2 h.2]

/-- Claim C5, amended: the trend scorer is deterministic given the
evaluation time — its result depends only on the evaluation time and each
record's upload date and view count (titles, descriptions and everything
else are irrelevant).  It does, however, depend on the wall-clock
evaluation time (see the counterexample), so it is not a pure function of
the record list alone as the claim states. -/
theorem claim_C5_deterministic_given_time (now : Real) (v1 v2 : List Video)
    (h : v1.map (fun v => (v.upload_date, v.views))
        = v2.map (fun v => (v.upload_date, v.views))) :
    Analytics.calculate_trend_score now v1
      = Analytics.calculate_trend_score now v2 := by
  have hud : v1.map (fun v => v.upload_date) = v2.map (fun v => v.upload_date) := by
    have hc := congrArg (List.map Prod.fst) h
    simpa [List.map_map, Function.comp] using hc
  have hvw : v1.map (fun v => v.views) = v2.map (fun v => v.views) := by
    have hc := congrArg (List.map Prod.snd) h
    simpa [List.map_map, Function.comp] using hc
  have hlen : v1.length = v2.length := by
    have hc := congrArg List.length h
    simpa using hc
  have hemp : v1.isEmpty = v2.isEmpty := by
    cases v1 <;> cases v2 <;> simp_all
  have htd : Analytics.trendDates v1 = Analytics.trendDates v2 :=
    trendDates_congr v1 v2 hud
  unfold Analytics.calculate_trend_score
  simp only [hemp, htd, hvw, hlen]

/-- Witness for C5: two single-record lists agreeing on upload date and
views but differing in title and description score identically. -/
theorem claim_C5_deterministic_given_time_witness :
    Analytics.calculate_trend_score 0 [⟨"A", "x", 5, some ("2020-05-05")⟩]
      = Analytics.calculate_trend_score 0 [⟨"B", "y", 5, some ("2020-05-05")⟩] :=
  claim_C5_deterministic_given_time 0
    [⟨"A", "x", 5, some ("2020-05-05")⟩]
    [⟨"B", "y", 5, some ("2020-05-05")⟩] (by rfl)

/-- Counterexample for C5 as stated: the very same record list scores
40.4 when evaluated on the upload day and 0.4 when evaluated 365 days
later — `calculate_trend_score` reads the wall clock
(`datetime.now()`), so it is not a pure function of its input list. -/
theorem claim_C5_counterexample :
    Analytics.calculate_trend_score ((730425 : Nat) : Real)
        [⟨"t", "", 0, some ("2000-01-01")⟩]
      ≠ Analytics.calculate_trend_score ((730790 : Nat) : Real)
        [⟨"t", "", 0, some ("2000-01-01")⟩] := by
  rw [calculate_trend_score_single ((730425 : Nat) : Real) ("t") ("")
      0 ("2000-01-01") 730425 (by decide)]
  rw [calculate_trend_score_single ((730790 : Nat) : Real) ("t") ("")
      0 ("2000-01-01") 730425 (by decide)]
  rw [recencyWeight_today 730425]
  have hr2 : Analytics.recencyWeight ((730790 : Nat) : Real) 730425 = 0 := by
    simp only [Analytics.recencyWeight]
    rw [show ((730790 : Nat) : Real) - ((730425 : Nat) : Real)
        = ((365 : Int) : Real) by push_cast; norm_num, Int.floor_intCast]
    rw [show (((365 : Int) : Real)) / 365 = 1 by push_cast; norm_num]
    rw [min_self, sub_self, max_self]
  rw [hr2]
  have e1 : ((1 : Real) * (0.4 : Real)
      + Real.log (1 + ((0 : Int) : Real)) / 15 * (0.4 : Real)
      + 1 / 50 * (0.2 : Real)) * 100 = ((404 : Int) : Real) / 10 := by
    rw [show (1 + ((0 : Int) : Real)) = 1 by norm_num, Real.log_one]
    norm_num
  have e2 : ((0 : Real) * (0.4 : Real)
      + Real.log (1 + ((0 : Int) : Real)) / 15 * (0.4 : Real)
      + 1 / 50 * (0.2 : Real)) * 100 = ((4 : Int) : Real) / 10 := by
    rw [show (1 + ((0 : Int) : Real)) = 1 by norm_num, Real.log_one]
    norm_num
  rw [e1, e2, round1_tenths, round1_tenths]
  simp only [ne_eq, Option.some.injEq]
  norm_num

end CoverScope
